import Mathlib

/-
  Shallow embedding of drivers/virt/vmgenid.c (the "Virtual Machine
  Generation ID" driver).

  Modelling choices:
  * A 16-byte buffer (the identifier region, and the monitor's private
    snapshot this_id) is a function from Fin VMGENID_SIZE to byte values,
    so memcpy is function copy and memcmp is (decidable) function equality
    on exactly VMGENID_SIZE bytes.
  * Side effects (entropy injection, uevent emission, diagnostic logging,
    memory mapping) are recorded in an explicit event trace.
  * vmgenid_notify in C returns void; the early return on the memcmp-equal
    path is the spec's Unchanged outcome, the fall-through path is Changed.
    The live region pointed to by state->next_id is passed as the value the
    16-byte read observes during that invocation.
  * Error pointers (IS_ERR / PTR_ERR) are an Except Int, carrying the
    (negative, hence nonzero) errno encoded in the pointer.
  * ACPI firmware is a record: the result of evaluating the ADDR method
    (none models ACPI_FAILURE; some none models a success that yields a
    null buffer pointer), the behaviour of devm_memremap at each physical
    address, and whether acpi_install_notify_handler succeeds.
-/

namespace Vmgenid

/-- VMGENID_SIZE from vmgenid.c line 18. -/
def VMGENID_SIZE : Nat := 16

/-- A 16-byte buffer: one byte value per index below VMGENID_SIZE. -/
abbrev Bytes := Fin VMGENID_SIZE → Nat

/-- Observable side effects of the driver, in program order. -/
inductive Event where
  | logAcpiException : Event
  | mapRegion (phys : Nat) : Event
  | addDeviceRandomness (bytes : Bytes) : Event
  | addVmforkRandomness (bytes : Bytes) : Event
  | logDevErr : Event
  | uevent : Event
deriving DecidableEq

/-- The spec's ChangeOutcome for on_change_signal. -/
inductive ChangeOutcome where
  | Changed : ChangeOutcome
  | Unchanged : ChangeOutcome
deriving DecidableEq

/-- struct vmgenid_state: this_id is the monitor-owned snapshot
(last_observed in the spec).  The next_id live pointer is modelled by
passing the region value read through it to each operation. -/
structure VmgenidState where
  this_id : Bytes
deriving DecidableEq

/-- Result of one vmgenid_notify invocation: the updated state, the
outcome, and the side effects it performed. -/
structure NotifyResult where
  state : VmgenidState
  outcome : ChangeOutcome
  events : List Event
deriving DecidableEq

/-- vmgenid_notify (vmgenid.c lines 25-37).  next_id is the 16-byte value
read from the live region during this invocation.  old_id retains the
prior snapshot, this_id is unconditionally overwritten with the fresh
read, then old and new are compared; on equality the function returns
early with no side effects, otherwise it injects the new bytes via
add_vmfork_randomness and emits one KOBJ_CHANGE uevent. -/
def vmgenid_notify (state : VmgenidState) (next_id : Bytes) : NotifyResult :=
  let old_id := state.this_id
  let newState : VmgenidState := { this_id := next_id }
  if old_id = newState.this_id then
    { state := newState, outcome := ChangeOutcome.Unchanged, events := [] }
  else
    { state := newState, outcome := ChangeOutcome.Changed,
      events := [Event.addVmforkRandomness newState.this_id, Event.uevent] }

/-- setup_vmgenid_state (vmgenid.c lines 46-56).  next_id is the result of
devm_memremap: an error pointer (IS_ERR, carrying a nonzero errno) or a
valid mapping, in which case its current 16-byte contents are copied into
this_id and injected via add_device_randomness, returning 0. -/
def setup_vmgenid_state (next_id : Except Int Bytes) :
    Except Int (VmgenidState × List Event) :=
  match next_id with
  | Except.error e => Except.error e
  | Except.ok region =>
      Except.ok ({ this_id := region }, [Event.addDeviceRandomness region])

/-- 2^64: phys_addr_t / acpi integer width. -/
def U64 : Nat := 2 ^ 64

/-- The address combination at vmgenid.c lines 83-84:
(elements[0].integer.value << 0) | (elements[1].integer.value << 32),
evaluated in 64-bit unsigned arithmetic. -/
def physAddrOf (lo hi : Nat) : Nat :=
  ((lo <<< 0) ||| (hi <<< 32)) % U64

/-- The address combination as the spec states it:
(L & 0xFFFFFFFF) | (H << 32), with 64-bit wraparound.  Written from the
spec's words, for comparison against physAddrOf. -/
def physAddrSpecFormula (lo hi : Nat) : Nat :=
  ((lo &&& 0xFFFFFFFF) ||| (hi <<< 32)) % U64

/-- A union acpi_object, restricted to the shapes the driver inspects. -/
inductive AcpiObject where
  | integer (value : Nat) : AcpiObject
  | package (elements : List AcpiObject) : AcpiObject
  | other : AcpiObject

/-- The descriptor validation at vmgenid.c lines 76-78: the evaluated
object must be non-null, a package of exactly two elements, both
integers; on success, yields the two integer values. -/
def addrPackageFields : Option AcpiObject → Option (Nat × Nat)
  | some (AcpiObject.package [AcpiObject.integer lo, AcpiObject.integer hi]) =>
      some (lo, hi)
  | _ => none

/-- The ACPI environment vmgenid_add_acpi interacts with. -/
structure AcpiFirmware where
  addr_eval : Option (Option AcpiObject)
  memremap : Nat → Except Int Bytes
  install_notify_ok : Bool

def ENODEV : Int := 19
def EINVAL : Int := 22
def ENOMEM : Int := 12

/-- Result of vmgenid_add_acpi: the returned errno (0 on success), the
final value of dev->driver_data, and the side-effect trace. -/
structure AddAcpiResult where
  ret : Int
  driver_data : Option VmgenidState
  trace : List Event

/-- vmgenid_add_acpi (vmgenid.c lines 58-107, CONFIG_ACPI enabled), for a
device whose driver_data starts out null.  Evaluates ADDR (logging an ACPI
exception and returning -ENODEV on failure), validates the two-integer
package (returning -EINVAL without touching the region otherwise),
combines the physical address, maps 16 bytes there, initializes the state,
sets driver_data and installs the notify handler (on failure logging a
device error, clearing driver_data and returning -ENODEV). -/
def vmgenid_add_acpi (fw : AcpiFirmware) : AddAcpiResult :=
  match fw.addr_eval with
  | none =>
      { ret := -ENODEV, driver_data := none, trace := [Event.logAcpiException] }
  | some parsed =>
      match addrPackageFields parsed with
      | none => { ret := -EINVAL, driver_data := none, trace := [] }
      | some (lo, hi) =>
          let phys := physAddrOf lo hi
          match setup_vmgenid_state (fw.memremap phys) with
          | Except.error e =>
              { ret := e, driver_data := none, trace := [Event.mapRegion phys] }
          | Except.ok (st, ev) =>
              if fw.install_notify_ok then
                { ret := 0, driver_data := some st,
                  trace := Event.mapRegion phys :: ev }
              else
                { ret := -ENODEV, driver_data := none,
                  trace := Event.mapRegion phys :: (ev ++ [Event.logDevErr]) }

/-- Result of vmgenid_add: returned errno, final driver_data, whether the
allocated vmgenid_state was freed again, and the side-effect trace. -/
structure AddResult where
  ret : Int
  driver_data : Option VmgenidState
  stateFreed : Bool
  trace : List Event

/-- vmgenid_add (vmgenid.c lines 109-125): allocate the state (alloc_ok
models devm_kmalloc success), run vmgenid_add_acpi, and free the state
again (devm_kfree) whenever that returned an error. -/
def vmgenid_add (alloc_ok : Bool) (fw : AcpiFirmware) : AddResult :=
  if alloc_ok then
    let r := vmgenid_add_acpi fw
    { ret := r.ret, driver_data := r.driver_data,
      stateFreed := decide (r.ret ≠ 0), trace := r.trace }
  else
    { ret := -ENOMEM, driver_data := none, stateFreed := false, trace := [] }

/-- Accumulated result of a sequence of notify invocations. -/
structure RunAcc where
  state : VmgenidState
  outcomes : List ChangeOutcome
  events : List Event
deriving DecidableEq

/-- Deliver a sequence of change signals; the n-th list element is the
region value the n-th invocation reads through next_id. -/
def runSignals (st : VmgenidState) : List Bytes → RunAcc
  | [] => { state := st, outcomes := [], events := [] }
  | r :: rs =>
      let res := vmgenid_notify st r
      let rest := runSignals res.state rs
      { state := rest.state, outcomes := res.outcome :: rest.outcomes,
        events := res.events ++ rest.events }

/-- A whole monitor run: initialize from the mapping result next_id, then
deliver the given sequence of signals. -/
def runMonitor (next_id : Except Int Bytes) (reads : List Bytes) :
    Except Int RunAcc :=
  match setup_vmgenid_state next_id with
  | Except.error e => Except.error e
  | Except.ok (st, ev) =>
      let rest := runSignals st reads
      Except.ok { state := rest.state, outcomes := rest.outcomes,
                  events := ev ++ rest.events }

/-- The bytes an event injects into the entropy subsystem, if any. -/
def entropyPayload : Event → Option Bytes
  | Event.addDeviceRandomness b => some b
  | Event.addVmforkRandomness b => some b
  | _ => none

/-- The payload of the most recent entropy injection in a trace. -/
def lastInjected (t : List Event) : Option Bytes :=
  (t.filterMap entropyPayload).getLast?

/-- Whether an event is a diagnostic log entry. -/
def isDiagnostic : Event → Bool
  | Event.logAcpiException => true
  | Event.logDevErr => true
  | _ => false

/-- All-zero 16-byte value. -/
def zeroId : Bytes := fun _ => 0

/-- All-ones 16-byte value. -/
def oneId : Bytes := fun _ => 1

lemma notify_of_eq (st : VmgenidState) (r : Bytes) (h : st.this_id = r) :
    vmgenid_notify st r =
      { state := { this_id := r }, outcome := ChangeOutcome.Unchanged,
        events := [] } := by
  simp [vmgenid_notify, h]

lemma notify_of_ne (st : VmgenidState) (r : Bytes) (h : st.this_id ≠ r) :
    vmgenid_notify st r =
      { state := { this_id := r }, outcome := ChangeOutcome.Changed,
        events := [Event.addVmforkRandomness r, Event.uevent] } := by
  simp [vmgenid_notify, h]

lemma runSignals_all_unchanged (rs : List Bytes) (st : VmgenidState)
    (h : ∀ x ∈ rs, x = st.this_id) :
    runSignals st rs =
      { state := st,
        outcomes := List.replicate rs.length ChangeOutcome.Unchanged,
        events := [] } := by
  induction rs with
  | nil => simp [runSignals]
  | cons r rs ih =>
      have hr : st.this_id = r := (h r (List.mem_cons_self r rs)).symm
      have hst : ({ this_id := r } : VmgenidState) = st := by
        rw [← hr]
      have hrest : ∀ x ∈ rs, x = st.this_id := fun x hx =>
        h x (List.mem_cons_of_mem r hx)
      simp [runSignals, notify_of_eq st r hr, hst, ih hrest,
        List.replicate_succ]

/-- C10: vmgenid_notify unconditionally overwrites this_id with the value
freshly read from the live region before comparing, so after every
invocation this_id equals that fresh read, and the outcome is Unchanged
exactly when the retained old value equals the fresh read. -/
theorem c10_fresh_read (st : VmgenidState) (r : Bytes) :
    (vmgenid_notify st r).state.this_id = r ∧
    ((vmgenid_notify st r).outcome = ChangeOutcome.Unchanged ↔
      st.this_id = r) := by
  by_cases h : st.this_id = r
  · simp [notify_of_eq st r h, h]
  · simp [notify_of_ne st r h, h]

/-- C2: when the newly-read region value equals the stored last_observed
value the call yields Unchanged with no entropy injection and no
notification, and over any sequence of signals during which the region
value never changes every call yields Unchanged with no side effects. -/
theorem c2_unchanged_noop (st : VmgenidState) (r : Bytes) (rs : List Bytes)
    (h1 : r = st.this_id) (h2 : ∀ x ∈ rs, x = st.this_id) :
    (vmgenid_notify st r).outcome = ChangeOutcome.Unchanged ∧
    (vmgenid_notify st r).events = [] ∧
    (runSignals st rs).outcomes =
      List.replicate rs.length ChangeOutcome.Unchanged ∧
    (runSignals st rs).events = [] := by
  refine ⟨?_, ?_, ?_, ?_⟩
  · simp [notify_of_eq st r h1.symm]
  · simp [notify_of_eq st r h1.symm]
  · simp [runSignals_all_unchanged rs st h2]
  · simp [runSignals_all_unchanged rs st h2]

theorem c2_unchanged_noop_witness :
    (vmgenid_notify { this_id := zeroId } zeroId).outcome =
      ChangeOutcome.Unchanged ∧
    (vmgenid_notify { this_id := zeroId } zeroId).events = [] ∧
    (runSignals { this_id := zeroId } [zeroId, zeroId]).outcomes =
      List.replicate 2 ChangeOutcome.Unchanged ∧
    (runSignals { this_id := zeroId } [zeroId, zeroId]).events = [] :=
  c2_unchanged_noop { this_id := zeroId } zeroId [zeroId, zeroId] rfl
    (by simp)

/-- C3: when the newly-read region value differs from the stored
last_observed value the call yields Changed, updates last_observed to the
new value, performs exactly one forced-reseed entropy injection carrying
the new 16 bytes, and emits exactly one change notification. -/
theorem c3_changed_side_effects (st : VmgenidState) (r : Bytes)
    (h : r ≠ st.this_id) :
    (vmgenid_notify st r).outcome = ChangeOutcome.Changed ∧
    (vmgenid_notify st r).state.this_id = r ∧
    (vmgenid_notify st r).events =
      [Event.addVmforkRandomness r, Event.uevent] := by
  simp [notify_of_ne st r (Ne.symm h)]

theorem c3_changed_side_effects_witness :
    (vmgenid_notify { this_id := zeroId } oneId).outcome =
      ChangeOutcome.Changed ∧
    (vmgenid_notify { this_id := zeroId } oneId).state.this_id = oneId ∧
    (vmgenid_notify { this_id := zeroId } oneId).events =
      [Event.addVmforkRandomness oneId, Event.uevent] :=
  c3_changed_side_effects { this_id := zeroId } oneId (by decide)

/-- C4: duplicate signals are idempotent: with the region holding a new
value v, the first signal yields Changed with its side effects and every
one of the n following signals with the region still holding v yields
Unchanged, the total side effects being exactly those of the first call. -/
theorem c4_idempotent (st : VmgenidState) (v : Bytes) (n : Nat)
    (h : v ≠ st.this_id) :
    (runSignals st (v :: List.replicate n v)).outcomes =
      ChangeOutcome.Changed :: List.replicate n ChangeOutcome.Unchanged ∧
    (runSignals st (v :: List.replicate n v)).events =
      [Event.addVmforkRandomness v, Event.uevent] ∧
    (runSignals st (v :: List.replicate n v)).state.this_id = v := by
  have hrep : ∀ x ∈ List.replicate n v,
      x = ({ this_id := v } : VmgenidState).this_id := by
    intro x hx
    simpa using List.eq_of_mem_replicate hx
  simp [runSignals, notify_of_ne st v (Ne.symm h),
    runSignals_all_unchanged (List.replicate n v) { this_id := v } hrep]

theorem c4_idempotent_witness :
    (runSignals { this_id := zeroId } (oneId :: List.replicate 3 oneId)).outcomes =
      ChangeOutcome.Changed :: List.replicate 3 ChangeOutcome.Unchanged ∧
    (runSignals { this_id := zeroId } (oneId :: List.replicate 3 oneId)).events =
      [Event.addVmforkRandomness oneId, Event.uevent] ∧
    (runSignals { this_id := zeroId } (oneId :: List.replicate 3 oneId)).state.this_id =
      oneId :=
  c4_idempotent { this_id := zeroId } oneId 3 (by decide)

/-- C5: setup_vmgenid_state on a successfully resolved region leaves
last_observed equal to the region's value at call time, injects exactly
those 16 bytes exactly once as boot entropy (add_device_randomness, not a
forced reseed), and succeeds; on a resolution error it propagates exactly
that error. -/
theorem c5_initialize (region : Bytes) (e : Int) :
    (∃ st ev, setup_vmgenid_state (Except.ok region) = Except.ok (st, ev) ∧
      st.this_id = region ∧
      ev = [Event.addDeviceRandomness region] ∧
      ev.filterMap entropyPayload = [region] ∧
      ev.countP (fun x => x = Event.addVmforkRandomness region) = 0) ∧
    setup_vmgenid_state (Except.error e) = Except.error e := by
  refine ⟨⟨{ this_id := region }, [Event.addDeviceRandomness region],
    rfl, rfl, rfl, ?_, ?_⟩, rfl⟩
  · simp [entropyPayload]
  · simp [entropyPayload, Event.addDeviceRandomness.injEq]

lemma lastInjected_append_run (reads : List Bytes) (st : VmgenidState)
    (ev0 : List Event) (h : lastInjected ev0 = some st.this_id) :
    lastInjected (ev0 ++ (runSignals st reads).events) =
      some (runSignals st reads).state.this_id := by
  induction reads generalizing st ev0 with
  | nil => simpa [runSignals] using h
  | cons r rs ih =>
      by_cases hr : st.this_id = r
      · have h' : lastInjected ev0 = some r := hr ▸ h
        have hrec := ih { this_id := r } ev0 h'
        simpa [runSignals, notify_of_eq st r hr] using hrec
      · have h' : lastInjected
            (ev0 ++ [Event.addVmforkRandomness r, Event.uevent]) = some r := by
          simp [lastInjected, entropyPayload]
        have hrec := ih { this_id := r }
          (ev0 ++ [Event.addVmforkRandomness r, Event.uevent]) h'
        simpa [runSignals, notify_of_ne st r hr, List.append_assoc] using hrec

/-- C7: invariant preserved by initialization and every signal delivery:
after any run of the monitor, last_observed (this_id) equals the payload
of the most recent entropy injection, since this_id is only effectively
updated as part of a successful change-processing step. -/
theorem c7_last_injected_invariant (r0 : Bytes) (reads : List Bytes)
    (acc : RunAcc) (h : runMonitor (Except.ok r0) reads = Except.ok acc) :
    lastInjected acc.events = some acc.state.this_id := by
  have hbase : lastInjected [Event.addDeviceRandomness r0] =
      some (({ this_id := r0 } : VmgenidState)).this_id := by
    simp [lastInjected, entropyPayload]
  have hmain := lastInjected_append_run reads { this_id := r0 }
    [Event.addDeviceRandomness r0] hbase
  have hconst : runMonitor (Except.ok r0) reads =
      Except.ok ⟨(runSignals { this_id := r0 } reads).state,
        (runSignals { this_id := r0 } reads).outcomes,
        Event.addDeviceRandomness r0 ::
          (runSignals { this_id := r0 } reads).events⟩ := rfl
  rw [hconst] at h
  injection h with h3
  rw [← h3]
  simpa using hmain

/-- The run accumulator produced by initializing from the all-zero value
and then signalling once with the region rewritten to all ones. -/
def witnessAcc : RunAcc :=
  { state := { this_id := oneId },
    outcomes := [ChangeOutcome.Changed],
    events := [Event.addDeviceRandomness zeroId,
      Event.addVmforkRandomness oneId, Event.uevent] }

theorem c7_last_injected_invariant_witness :
    lastInjected witnessAcc.events = some witnessAcc.state.this_id :=
  c7_last_injected_invariant zeroId [oneId] witnessAcc (by rfl)

lemma add_acpi_ret_or_driver_data (fw : AcpiFirmware) :
    (vmgenid_add_acpi fw).ret = 0 ∨ (vmgenid_add_acpi fw).driver_data = none := by
  cases hev : fw.addr_eval with
  | none => right; simp [vmgenid_add_acpi, hev]
  | some parsed =>
      cases hpf : addrPackageFields parsed with
      | none => right; simp [vmgenid_add_acpi, hev, hpf]
      | some p =>
          obtain ⟨lo, hi⟩ := p
          cases hmap : setup_vmgenid_state (fw.memremap (physAddrOf lo hi)) with
          | error e => right; simp [vmgenid_add_acpi, hev, hpf, hmap]
          | ok pr =>
              obtain ⟨st, ev⟩ := pr
              cases hins : fw.install_notify_ok
              · right; simp [vmgenid_add_acpi, hev, hpf, hmap, hins]
              · left; simp [vmgenid_add_acpi, hev, hpf, hmap, hins]

/-- C9: attachment is atomic with respect to failure: whenever vmgenid_add
returns an error after the state allocation succeeded, the allocated state
has been freed again and the device's driver_data does not point at it (in
the notification-registration failure it has been reset to null). -/
theorem c9_failure_atomic (fw : AcpiFirmware)
    (h : (vmgenid_add true fw).ret ≠ 0) :
    (vmgenid_add true fw).stateFreed = true ∧
    (vmgenid_add true fw).driver_data = none := by
  simp only [vmgenid_add, if_true] at h ⊢
  rcases add_acpi_ret_or_driver_data fw with h0 | hnone
  · exact absurd h0 h
  · exact ⟨by simp [h], hnone⟩

/-- The two concrete integer values used by the well-formed test
descriptor below. -/
def goodPackage : AcpiObject :=
  AcpiObject.package [AcpiObject.integer 5, AcpiObject.integer 7]

/-- Firmware whose ADDR evaluation fails (ACPI_FAILURE). -/
def fwEvalFail : AcpiFirmware :=
  { addr_eval := none, memremap := fun _ => Except.ok zeroId,
    install_notify_ok := true }

/-- Firmware returning a malformed, single-element package. -/
def fwMalformed : AcpiFirmware :=
  { addr_eval := some (some (AcpiObject.package [AcpiObject.integer 5])),
    memremap := fun _ => Except.ok zeroId, install_notify_ok := true }

/-- Firmware with a well-formed descriptor whose region cannot be mapped. -/
def fwMapFail : AcpiFirmware :=
  { addr_eval := some (some goodPackage),
    memremap := fun _ => Except.error (-12), install_notify_ok := true }

/-- Firmware with a well-formed descriptor and mappable region, for which
installing the notify handler fails. -/
def fwInstallFail : AcpiFirmware :=
  { addr_eval := some (some goodPackage),
    memremap := fun _ => Except.ok zeroId, install_notify_ok := false }

/-- Fully functional firmware. -/
def fwGood : AcpiFirmware :=
  { addr_eval := some (some goodPackage),
    memremap := fun _ => Except.ok zeroId, install_notify_ok := true }

theorem c9_failure_atomic_witness :
    (vmgenid_add true fwInstallFail).ret ≠ 0 ∧
    (vmgenid_add true fwInstallFail).stateFreed = true ∧
    (vmgenid_add true fwInstallFail).driver_data = none :=
  ⟨by decide, c9_failure_atomic fwInstallFail (by decide)⟩

/-- C6: the resolver fails with -ENODEV (ResolutionError) when the
firmware ADDR evaluation itself fails, and with -EINVAL
(MalformedDescriptor) when the evaluated object is not exactly a
two-element package of integers, in which case no mapping of the region
is attempted. -/
theorem c6_resolver_errors (fw : AcpiFirmware) :
    (fw.addr_eval = none → (vmgenid_add_acpi fw).ret = -ENODEV) ∧
    (∀ parsed, fw.addr_eval = some parsed → addrPackageFields parsed = none →
      (vmgenid_add_acpi fw).ret = -EINVAL ∧
      ∀ p, Event.mapRegion p ∉ (vmgenid_add_acpi fw).trace) := by
  constructor
  · intro hev
    simp [vmgenid_add_acpi, hev]
  · intro parsed hev hpf
    refine ⟨?_, ?_⟩
    · simp [vmgenid_add_acpi, hev, hpf]
    · intro p
      simp [vmgenid_add_acpi, hev, hpf]

theorem c6_resolver_errors_witness :
    (vmgenid_add_acpi fwEvalFail).ret = -ENODEV ∧
    (vmgenid_add_acpi fwMalformed).ret = -EINVAL ∧
    ∀ p, Event.mapRegion p ∉ (vmgenid_add_acpi fwMalformed).trace :=
  ⟨(c6_resolver_errors fwEvalFail).1 rfl,
   ((c6_resolver_errors fwMalformed).2
      (some (AcpiObject.package [AcpiObject.integer 5])) rfl rfl).1,
   ((c6_resolver_errors fwMalformed).2
      (some (AcpiObject.package [AcpiObject.integer 5])) rfl rfl).2⟩

/-- C8 counterexample: a firmware-query failure is an attachment failure
that is not a notification-registration failure, yet its path emits a
diagnostic log entry (the ACPI exception logged while evaluating ADDR),
contradicting the claim that every non-registration attachment failure is
silent. -/
theorem c8_counterexample :
    (vmgenid_add_acpi fwEvalFail).ret ≠ 0 ∧
    fwEvalFail.install_notify_ok = true ∧
    Event.logAcpiException ∈ (vmgenid_add_acpi fwEvalFail).trace ∧
    isDiagnostic Event.logAcpiException = true := by
  refine ⟨by decide, rfl, ?_, rfl⟩
  simp [vmgenid_add_acpi, fwEvalFail]

/-- C8 amended: two attachment failures produce a diagnostic log entry --
the firmware-query failure (ACPI exception) and the
notification-registration failure (device error); the malformed-descriptor
and mapping-failure paths are silent. -/
theorem c8_amended_diagnostics (fw : AcpiFirmware) :
    (fw.addr_eval = none →
      (vmgenid_add_acpi fw).ret ≠ 0 ∧
      (vmgenid_add_acpi fw).trace = [Event.logAcpiException]) ∧
    (∀ parsed, fw.addr_eval = some parsed → addrPackageFields parsed = none →
      (vmgenid_add_acpi fw).ret ≠ 0 ∧
      ∀ ev ∈ (vmgenid_add_acpi fw).trace, isDiagnostic ev = false) ∧
    (∀ parsed lo hi e, fw.addr_eval = some parsed →
      addrPackageFields parsed = some (lo, hi) →
      fw.memremap (physAddrOf lo hi) = Except.error e → e ≠ 0 →
      (vmgenid_add_acpi fw).ret ≠ 0 ∧
      ∀ ev ∈ (vmgenid_add_acpi fw).trace, isDiagnostic ev = false) ∧
    (∀ parsed lo hi region, fw.addr_eval = some parsed →
      addrPackageFields parsed = some (lo, hi) →
      fw.memremap (physAddrOf lo hi) = Except.ok region →
      fw.install_notify_ok = false →
      (vmgenid_add_acpi fw).ret ≠ 0 ∧
      Event.logDevErr ∈ (vmgenid_add_acpi fw).trace) := by
  refine ⟨?_, ?_, ?_, ?_⟩
  · intro hev
    constructor
    · simp [vmgenid_add_acpi, hev, ENODEV]
    · simp [vmgenid_add_acpi, hev]
  · intro parsed hev hpf
    constructor
    · simp [vmgenid_add_acpi, hev, hpf, EINVAL]
    · intro ev hmem
      simp [vmgenid_add_acpi, hev, hpf] at hmem
  · intro parsed lo hi e hev hpf hmap he
    have hsetup : setup_vmgenid_state (fw.memremap (physAddrOf lo hi)) =
        Except.error e := by
      rw [hmap]
      rfl
    constructor
    · simpa [vmgenid_add_acpi, hev, hpf, hsetup] using he
    · intro ev hmem
      simp [vmgenid_add_acpi, hev, hpf, hsetup] at hmem
      simp [hmem, isDiagnostic]
  · intro parsed lo hi region hev hpf hmap hins
    have hsetup : setup_vmgenid_state (fw.memremap (physAddrOf lo hi)) =
        Except.ok ({ this_id := region }, [Event.addDeviceRandomness region]) := by
      rw [hmap]
      rfl
    constructor
    · simp [vmgenid_add_acpi, hev, hpf, hsetup, hins, ENODEV]
    · simp [vmgenid_add_acpi, hev, hpf, hsetup, hins]

theorem c8_amended_diagnostics_witness :
    ((vmgenid_add_acpi fwEvalFail).ret ≠ 0 ∧
      (vmgenid_add_acpi fwEvalFail).trace = [Event.logAcpiException]) ∧
    ((vmgenid_add_acpi fwMalformed).ret ≠ 0 ∧
      ∀ ev ∈ (vmgenid_add_acpi fwMalformed).trace, isDiagnostic ev = false) ∧
    ((vmgenid_add_acpi fwMapFail).ret ≠ 0 ∧
      ∀ ev ∈ (vmgenid_add_acpi fwMapFail).trace, isDiagnostic ev = false) ∧
    ((vmgenid_add_acpi fwInstallFail).ret ≠ 0 ∧
      Event.logDevErr ∈ (vmgenid_add_acpi fwInstallFail).trace) :=
  ⟨(c8_amended_diagnostics fwEvalFail).1 rfl,
   (c8_amended_diagnostics fwMalformed).2.1
     (some (AcpiObject.package [AcpiObject.integer 5])) rfl rfl,
   (c8_amended_diagnostics fwMapFail).2.2.1
     (some goodPackage) 5 7 (-12) rfl rfl rfl (by decide),
   (c8_amended_diagnostics fwInstallFail).2.2.2
     (some goodPackage) 5 7 zeroId rfl rfl rfl rfl⟩

/-- C1 counterexample: the code combines the descriptor elements without
masking the low element to 32 bits, so for a low element of 2^32 the
computed physical address is 2^32 while the claimed formula
(L & 0xFFFFFFFF) | (H << 32) yields 0. -/
theorem c1_counterexample :
    physAddrOf (2 ^ 32) 0 ≠ physAddrSpecFormula (2 ^ 32) 0 ∧
    physAddrOf (2 ^ 32) 0 = 2 ^ 32 ∧
    physAddrSpecFormula (2 ^ 32) 0 = 0 := by
  refine ⟨?_, ?_, ?_⟩ <;> decide

/-- C1 amended: for every two-element integer descriptor whose low element
fits in 32 bits, the resolver's address computation agrees with the spec's
formula (L & 0xFFFFFFFF) | (H << 32) under 64-bit wraparound, and the
resolver maps the region at exactly that address; in general the code
computes (L | (H << 32)) mod 2^64 without masking the low element. -/
theorem c1_phys_addr_amended (fw : AcpiFirmware) (lo hi : Nat)
    (hlo : lo < 2 ^ 32)
    (heval : fw.addr_eval = some (some (AcpiObject.package
      [AcpiObject.integer lo, AcpiObject.integer hi]))) :
    physAddrOf lo hi = physAddrSpecFormula lo hi ∧
    Event.mapRegion (physAddrOf lo hi) ∈ (vmgenid_add_acpi fw).trace := by
  constructor
  · unfold physAddrOf physAddrSpecFormula
    have hmask : lo &&& 0xFFFFFFFF = lo := by
      have h32 : (0xFFFFFFFF : Nat) = 2 ^ 32 - 1 := by norm_num
      rw [h32, Nat.and_pow_two_sub_one_eq_mod, Nat.mod_eq_of_lt hlo]
    rw [Nat.shiftLeft_zero, hmask]
  · have hpf : addrPackageFields (some (AcpiObject.package
        [AcpiObject.integer lo, AcpiObject.integer hi])) = some (lo, hi) := rfl
    cases hmap : setup_vmgenid_state (fw.memremap (physAddrOf lo hi)) with
    | error e => simp [vmgenid_add_acpi, heval, hpf, hmap]
    | ok pr =>
        obtain ⟨st, ev⟩ := pr
        cases hins : fw.install_notify_ok
        · simp [vmgenid_add_acpi, heval, hpf, hmap, hins]
        · simp [vmgenid_add_acpi, heval, hpf, hmap, hins]

theorem c1_phys_addr_amended_witness :
    physAddrOf 5 7 = physAddrSpecFormula 5 7 ∧
    Event.mapRegion (physAddrOf 5 7) ∈ (vmgenid_add_acpi fwGood).trace :=
  c1_phys_addr_amended fwGood 5 7 (by norm_num) rfl

end Vmgenid
